import Mathlib

/-!
Shallow embedding of `src/inventory_db.py` (class `InventoryManagement`).

The `products` table of the SQLite store is modelled as a list of rows in
storage order.  `id` is the `INTEGER PRIMARY KEY`, `price` (SQL `REAL`) is
modelled as a rational, `product_name` and `description` as strings and
`quantity` as an integer.  A method that raises is modelled as returning
`Except`: Python raises `ValueError` with the messages kept verbatim below;
the spec classifies the negative-quantity and excess-removal raises as
`InvalidArgument`, the missing-product raise as `NotFound`, and the SQLite
primary-key violation as `IntegrityError`.
-/

structure Product where
  id : Int
  product_name : String
  quantity : Int
  price : ℚ
  description : String
deriving Repr, DecidableEq

abbrev DB := List Product

inductive DBError where
  | InvalidArgument (msg : String)
  | NotFound (msg : String)
  | IntegrityError
deriving Repr, DecidableEq

/-- `SELECT ... FROM products WHERE id = ?` followed by `fetchone`:
the first row whose primary key equals `pid`, if any. -/
def find_product (db : DB) (pid : Int) : Option Product :=
  db.find? (fun p => p.id == pid)

/-- `get_product`: `SELECT * FROM products WHERE id = ?`, `fetchone`. -/
def get_product (db : DB) (pid : Int) : Option Product :=
  find_product db pid

/-- `UPDATE products SET quantity = ? WHERE id = ?`. -/
def set_quantity (db : DB) (pid : Int) (q : Int) : DB :=
  db.map (fun p => if p.id == pid then { p with quantity := q } else p)

/-- `add_stock` (src/inventory_db.py lines 65-85): raises on a negative
quantity, otherwise `UPDATE products SET quantity = quantity + ? WHERE id = ?`
(a no-op when no row has this id). -/
def add_stock (db : DB) (product_id quantity : Int) : Except DBError DB :=
  if quantity < 0 then
    .error (.InvalidArgument "Quantity to add must be non-negative.")
  else
    .ok (db.map (fun p =>
      if p.id == product_id then { p with quantity := p.quantity + quantity } else p))

/-- `remove_stock` (src/inventory_db.py lines 87-120): raises on a negative
quantity; `SELECT quantity ... fetchone` and raises when no row is found;
raises when the quantity exceeds the fetched quantity; otherwise
`UPDATE products SET quantity = quantity - ? WHERE id = ?`. -/
def remove_stock (db : DB) (product_id quantity : Int) : Except DBError DB :=
  if quantity < 0 then
    .error (.InvalidArgument "Quantity to remove must be non-negative.")
  else
    match find_product db product_id with
    | none => .error (.NotFound "Product ID not found.")
    | some p =>
      if quantity > p.quantity then
        .error (.InvalidArgument "Cannot remove more than available quantity.")
      else
        .ok (db.map (fun q =>
          if q.id == product_id then { q with quantity := q.quantity - quantity } else q))

/-- SQLite assigns to an `INTEGER PRIMARY KEY` insert without an explicit id
a rowid one larger than the largest rowid in the table (1 for an empty
table). -/
def next_id (db : DB) : Int :=
  db.foldl (fun m p => max m p.id) 0 + 1

/-- Python truthiness of the `product_id` argument (default `None`):
`if product_id:` is false both for `None` and for `0`. -/
def truthy : Option Int → Bool
  | none => false
  | some v => v != 0

/-- `add_product` (src/inventory_db.py lines 41-63): `if product_id:` insert
with the explicit id (SQLite raises `IntegrityError` when the primary key
already exists), else insert letting the store assign the rowid.  The result
carries the new table together with the rowid of the inserted row. -/
def add_product (db : DB) (product_name : String) (quantity : Int) (price : ℚ)
    (description : String) (product_id : Option Int) : Except DBError (DB × Int) :=
  if truthy product_id then
    let pid := product_id.getD 0
    if (find_product db pid).isSome then
      .error .IntegrityError
    else
      .ok (db ++ [⟨pid, product_name, quantity, price, description⟩], pid)
  else
    .ok (db ++ [⟨next_id db, product_name, quantity, price, description⟩], next_id db)

/-- A call to `add_stock` or `remove_stock`. -/
inductive StockOp where
  | add (pid qty : Int)
  | remove (pid qty : Int)
deriving Repr, DecidableEq

/-- Run one stock call against the table; a raised `ValueError` leaves the
table unchanged, since each raise in the source happens before the `UPDATE`. -/
def apply_op (db : DB) : StockOp → DB
  | .add pid q =>
    match add_stock db pid q with
    | .ok db2 => db2
    | .error _ => db
  | .remove pid q =>
    match remove_stock db pid q with
    | .ok db2 => db2
    | .error _ => db

/-- Run a sequence of stock calls. -/
def run_ops (db : DB) (ops : List StockOp) : DB :=
  ops.foldl apply_op db

/-- The precondition of one stock call, as the spec states it: a non-negative
quantity argument and, for `remove_stock`, a quantity not exceeding the
current stock of an existing product. -/
def op_pre (db : DB) : StockOp → Bool
  | .add _ q => decide (0 ≤ q)
  | .remove pid q =>
    decide (0 ≤ q) &&
      (match find_product db pid with
       | some p => decide (q ≤ p.quantity)
       | none => false)

/-- Every call of the sequence satisfies its precondition in the state it
runs in. -/
def ops_pre : DB → List StockOp → Bool
  | _, [] => true
  | db, op :: rest => op_pre db op && ops_pre (apply_op db op) rest

/-- Every stored quantity of the table is non-negative. -/
def nonneg_quantities (db : DB) : Prop :=
  ∀ p ∈ db, 0 ≤ p.quantity

/-- The primary keys of the table are pairwise distinct (the `PRIMARY KEY`
constraint of the schema). -/
def ids_nodup (db : DB) : Prop :=
  (db.map Product.id).Nodup

instance (db : DB) : Decidable (nonneg_quantities db) := by
  unfold nonneg_quantities; infer_instance

instance (db : DB) : Decidable (ids_nodup db) := by
  unfold ids_nodup; infer_instance

/-- One line of the in-memory `invoice_data` list built by
`process_outgoing_goods`. -/
structure InvoiceItem where
  product_id : Int
  product_name : String
  quantity : Int
  unit_price : ℚ
  total_price : ℚ
deriving Repr, DecidableEq

/-- One CSV row of an outgoing-goods batch after field parsing:
`codecontent` is the `CODECONTENT` field split as `[id, name, price]`
(`none` when the field is empty or missing, in which case the source skips
the row), `quantity` is `int(row QUANTITY)`. -/
structure OutRow where
  codecontent : Option (Int × String × ℚ)
  quantity : Int
deriving Repr, DecidableEq

/-- The invoice accumulation step of `process_outgoing_goods`
(src/inventory_db.py lines 256-267): `next(...)` finds the first line with
this product id and its quantity and total price are increased in place;
otherwise a fresh line is appended. -/
def add_to_invoice : List InvoiceItem → Int → String → Int → ℚ → List InvoiceItem
  | [], pid, pname, qty, price => [⟨pid, pname, qty, price, (qty : ℚ) * price⟩]
  | item :: rest, pid, pname, qty, price =>
    if item.product_id == pid then
      { item with
        quantity := item.quantity + qty,
        total_price := item.total_price + (qty : ℚ) * price } :: rest
    else
      item :: add_to_invoice rest pid pname qty price

/-- The catalog update of one outgoing row (src/inventory_db.py lines
247-253): when the product exists its quantity becomes
`max (old - row quantity) 0`; otherwise the catalog is untouched. -/
def outgoing_db_step (db : DB) (row : OutRow) : DB :=
  match row.codecontent with
  | none => db
  | some (pid, _, _) =>
    match find_product db pid with
    | some p => set_quantity db pid (max (p.quantity - row.quantity) 0)
    | none => db

/-- One loop iteration of `process_outgoing_goods`: the catalog update
followed by the invoice accumulation; a row with empty `CODECONTENT` is
skipped entirely. -/
def process_outgoing_row (db : DB) (invoice : List InvoiceItem) (row : OutRow) :
    DB × List InvoiceItem :=
  match row.codecontent with
  | none => (db, invoice)
  | some (pid, pname, pprice) =>
    (outgoing_db_step db row, add_to_invoice invoice pid pname row.quantity pprice)

/-- The fold step of the row loop of `process_outgoing_goods`: the running
state is the catalog together with the accumulated `invoice_data` list. -/
def out_step (st : DB × List InvoiceItem) (row : OutRow) : DB × List InvoiceItem :=
  process_outgoing_row st.1 st.2 row

/-- The whole row loop of `process_outgoing_goods`, starting from an empty
`invoice_data` list. -/
def process_outgoing_rows (db : DB) (rows : List OutRow) : DB × List InvoiceItem :=
  rows.foldl out_step (db, [])

/-- One CSV row of an incoming-goods batch after field parsing:
`codecontent` split as `[id, name, price, description]`. -/
structure InRow where
  codecontent : Option (Int × String × ℚ × String)
  quantity : Int
deriving Repr, DecidableEq

/-- One loop iteration of `process_incoming_goods` (src/inventory_db.py
lines 336-352): an existing product has its quantity increased by the row
quantity, a new product is inserted with the row's id, name, quantity,
price and description. -/
def process_incoming_row (db : DB) (row : InRow) : DB :=
  match row.codecontent with
  | none => db
  | some (pid, pname, pprice, pdesc) =>
    match find_product db pid with
    | some p => set_quantity db pid (p.quantity + row.quantity)
    | none => db ++ [⟨pid, pname, row.quantity, pprice, pdesc⟩]

/-- The whole row loop of `process_incoming_goods`. -/
def process_incoming_rows (db : DB) (rows : List InRow) : DB :=
  rows.foldl process_incoming_row db

/-- Externally visible effects of the batch procedures, in program order. -/
inductive Event where
  | updateQuantity (pid q : Int)
  | insertProduct (pid : Int)
  | moveFile
  | commit
  | writeInvoice
deriving Repr, DecidableEq

/-- The `UPDATE` events emitted by the row loop of
`process_outgoing_goods`, in program order. -/
def outgoing_row_trace : DB → List OutRow → List Event
  | _, [] => []
  | db, row :: rest =>
    (match row.codecontent with
     | none => []
     | some (pid, _, _) =>
       match find_product db pid with
       | some p => [Event.updateQuantity pid (max (p.quantity - row.quantity) 0)]
       | none => []) ++
    outgoing_row_trace (outgoing_db_step db row) rest

/-- The effect trace of `process_outgoing_goods` (src/inventory_db.py lines
239-272): the row loop, then `shutil.move` (line 269), then `conn.commit()`
(line 270), then `write_invoice` (line 272). -/
def process_outgoing_trace (db : DB) (rows : List OutRow) : List Event :=
  outgoing_row_trace db rows ++ [Event.moveFile, Event.commit, Event.writeInvoice]

/-- The `UPDATE`/`INSERT` events emitted by the row loop of
`process_incoming_goods`, in program order. -/
def incoming_row_trace : DB → List InRow → List Event
  | _, [] => []
  | db, row :: rest =>
    (match row.codecontent with
     | none => []
     | some (pid, _, _, _) =>
       match find_product db pid with
       | some p => [Event.updateQuantity pid (p.quantity + row.quantity)]
       | none => [Event.insertProduct pid]) ++
    incoming_row_trace (process_incoming_row db row) rest

/-- The effect trace of `process_incoming_goods` (src/inventory_db.py lines
333-356): the row loop, then `shutil.move` (line 354), then `conn.commit()`
(line 355). -/
def process_incoming_trace (db : DB) (rows : List InRow) : List Event :=
  incoming_row_trace db rows ++ [Event.moveFile, Event.commit]

/-- Total quantity contributed to product `pid` by the rows of an outgoing
batch. -/
def rows_qty (pid : Int) : List OutRow → Int
  | [] => 0
  | r :: rs =>
    (match r.codecontent with
     | some (p, _, _) => if p == pid then r.quantity else 0
     | none => 0) + rows_qty pid rs

/-- Total price (sum of quantity × unit price per row) contributed to
product `pid` by the rows of an outgoing batch. -/
def rows_total (pid : Int) : List OutRow → ℚ
  | [] => 0
  | r :: rs =>
    (match r.codecontent with
     | some (p, _, pr) => if p == pid then (r.quantity : ℚ) * pr else 0
     | none => 0) + rows_total pid rs

/-- Whether some non-skipped row of the batch references product `pid`. -/
def mentions (pid : Int) : List OutRow → Bool
  | [] => false
  | r :: rs =>
    (match r.codecontent with
     | some (p, _, _) => p == pid
     | none => false) || mentions pid rs

/-- The first invoice line for product `pid`, if any. -/
def find_invoice (inv : List InvoiceItem) (pid : Int) : Option InvoiceItem :=
  inv.find? (fun item => item.product_id == pid)

/-! ### Helper lemmas about the table -/

@[simp]
theorem quantity_update_id (p : Product) (q : Int) :
    ({ p with quantity := q } : Product).id = p.id := rfl

theorem find_product_eq_some {db : DB} {pid : Int} {p : Product}
    (h : find_product db pid = some p) : p ∈ db ∧ p.id = pid := by
  refine ⟨List.mem_of_find?_eq_some h, ?_⟩
  have h2 := List.find?_some h
  simpa using h2

/-- Looking a product up after a per-row rewrite that keeps every primary
key fixed finds the rewritten row. -/
theorem find_product_map (db : DB) (pid : Int) (f : Product → Product)
    (hf : ∀ p, (f p).id = p.id) :
    find_product (db.map f) pid = (find_product db pid).map f := by
  induction db with
  | nil => rfl
  | cons hd tl ih =>
    by_cases h : hd.id = pid
    · simp [find_product, List.find?_cons, hf hd, h]
    · have hb : (hd.id == pid) = false := by simp [h]
      simp only [find_product, List.map_cons, List.find?_cons, hf hd, hb] at *
      exact ih

/-- A per-row rewrite that keeps every primary key fixed keeps the column of
primary keys unchanged. -/
theorem map_ids_of_preserve (db : DB) (f : Product → Product)
    (hf : ∀ p, (f p).id = p.id) :
    (db.map f).map Product.id = db.map Product.id := by
  rw [List.map_map]
  exact List.map_congr_left (fun a _ => hf a)

/-- A per-row rewrite that only touches rows with an absent primary key is
the identity. -/
theorem map_eq_self_of_absent (db : DB) (pid : Int) (f : Product → Product)
    (hf : ∀ p, p.id ≠ pid → f p = p)
    (h : find_product db pid = none) : db.map f = db := by
  have h2 := List.find?_eq_none.mp h
  have h3 : ∀ p ∈ db, f p = p := by
    intro p hp
    apply hf
    intro he
    exact (h2 p hp) (by simp [he])
  calc db.map f = db.map id := List.map_congr_left (fun a ha => h3 a ha)
    _ = db := List.map_id db

theorem apply_op_ids (db : DB) (op : StockOp) :
    (apply_op db op).map Product.id = db.map Product.id := by
  cases op with
  | add pid q =>
    by_cases h : q < 0
    · simp [apply_op, add_stock, h]
    · simp only [apply_op, add_stock, if_neg h]
      exact map_ids_of_preserve db _
        (fun p => by by_cases hp : p.id == pid <;> simp [hp])
  | remove pid q =>
    by_cases h : q < 0
    · simp [apply_op, remove_stock, h]
    · cases hf : find_product db pid with
      | none => simp [apply_op, remove_stock, h, hf]
      | some p =>
        by_cases hq : q > p.quantity
        · simp [apply_op, remove_stock, h, hf, hq]
        · simp only [apply_op, remove_stock, if_neg h, hf, if_neg hq]
          exact map_ids_of_preserve db _
            (fun r => by by_cases hr : r.id == pid <;> simp [hr])

theorem apply_op_nonneg {db : DB} (op : StockOp)
    (hnd : ids_nodup db) (h0 : nonneg_quantities db) :
    nonneg_quantities (apply_op db op) := by
  cases op with
  | add pid q =>
    by_cases h : q < 0
    · simpa [apply_op, add_stock, h] using h0
    · simp only [apply_op, add_stock, if_neg h]
      intro p hp
      obtain ⟨a, ha, rfl⟩ := List.mem_map.mp hp
      by_cases hid : a.id == pid
      · have h1 := h0 a ha
        simp [hid]
        omega
      · simpa [hid] using h0 a ha
  | remove pid q =>
    by_cases h : q < 0
    · simpa [apply_op, remove_stock, h] using h0
    · cases hf : find_product db pid with
      | none => simpa [apply_op, remove_stock, h, hf] using h0
      | some p0 =>
        by_cases hq : q > p0.quantity
        · simpa [apply_op, remove_stock, h, hf, hq] using h0
        · simp only [apply_op, remove_stock, if_neg h, hf, if_neg hq]
          intro p hp
          obtain ⟨a, ha, rfl⟩ := List.mem_map.mp hp
          by_cases hid : a.id == pid
          · have haid : a.id = pid := by simpa using hid
            obtain ⟨hmem, hpid⟩ := find_product_eq_some hf
            have hap : a = p0 :=
              List.inj_on_of_nodup_map hnd ha hmem (by rw [haid, hpid])
            subst hap
            simp [hid]
            omega
          · simpa [hid] using h0 a ha

theorem run_ops_nonneg (ops : List StockOp) :
    ∀ db : DB, ids_nodup db → nonneg_quantities db →
      nonneg_quantities (run_ops db ops) := by
  induction ops with
  | nil => intro db _ h0; exact h0
  | cons op rest ih =>
    intro db hnd h0
    have hnd2 : ids_nodup (apply_op db op) := by
      unfold ids_nodup
      rw [apply_op_ids]
      exact hnd
    have h2 : nonneg_quantities (apply_op db op) := apply_op_nonneg op hnd h0
    simpa [run_ops, List.foldl_cons] using ih (apply_op db op) hnd2 h2

/-- C1: for every product and every sequence of `add_stock` and
`remove_stock` calls in which each call individually satisfies its
precondition, the stored quantity of every product is non-negative after
the sequence, provided every quantity was non-negative initially.  A call
that violates its precondition raises before its `UPDATE` and leaves the
table unchanged, so the proof does not even need the precondition
hypothesis. -/
theorem C1_stock_invariant (db : DB) (ops : List StockOp)
    (hnd : ids_nodup db) (h0 : nonneg_quantities db)
    (hpre : ops_pre db ops = true) :
    nonneg_quantities (run_ops db ops) :=
  run_ops_nonneg ops db hnd h0

theorem C1_stock_invariant_witness :
    ids_nodup [⟨1, "Widget", 5, 2, "w"⟩] ∧
    nonneg_quantities [⟨1, "Widget", 5, 2, "w"⟩] ∧
    ops_pre [⟨1, "Widget", 5, 2, "w"⟩]
      [StockOp.add 1 3, StockOp.remove 1 8, StockOp.remove 1 0] = true ∧
    nonneg_quantities (run_ops [⟨1, "Widget", 5, 2, "w"⟩]
      [StockOp.add 1 3, StockOp.remove 1 8, StockOp.remove 1 0]) :=
  ⟨by decide, by decide, by decide,
    C1_stock_invariant _ _ (by decide) (by decide) (by decide)⟩

/-- C2: `remove_stock` fails with `InvalidArgument` on a negative quantity,
with `NotFound` on a missing product, with `InvalidArgument` when the
quantity exceeds the current stock; every failure leaves the table
unchanged; otherwise the stored quantity is decremented by exactly the
requested quantity. -/
theorem C2_remove_stock_spec (db : DB) (pid qty : Int) :
    (qty < 0 →
      remove_stock db pid qty =
        .error (.InvalidArgument "Quantity to remove must be non-negative.")) ∧
    (0 ≤ qty → find_product db pid = none →
      remove_stock db pid qty = .error (.NotFound "Product ID not found.")) ∧
    (∀ p, 0 ≤ qty → find_product db pid = some p → p.quantity < qty →
      remove_stock db pid qty =
        .error (.InvalidArgument "Cannot remove more than available quantity.")) ∧
    (∀ e, remove_stock db pid qty = .error e →
      apply_op db (StockOp.remove pid qty) = db) ∧
    (∀ p, 0 ≤ qty → find_product db pid = some p → qty ≤ p.quantity →
      find_product (apply_op db (StockOp.remove pid qty)) pid =
        some { p with quantity := p.quantity - qty }) := by
  refine ⟨?_, ?_, ?_, ?_, ?_⟩
  · intro h
    simp [remove_stock, h]
  · intro h hn
    simp [remove_stock, not_lt.mpr h, hn]
  · intro p h hf hlt
    simp [remove_stock, not_lt.mpr h, hf, hlt]
  · intro e he
    simp [apply_op, he]
  · intro p h hf hle
    have hstep : apply_op db (StockOp.remove pid qty) =
        db.map (fun q =>
          if q.id == pid then { q with quantity := q.quantity - qty } else q) := by
      simp [apply_op, remove_stock, not_lt.mpr h, hf, not_lt.mpr hle]
    rw [hstep,
      find_product_map db pid _ (fun r => by by_cases hr : r.id == pid <;> simp [hr]),
      hf]
    have hid := (find_product_eq_some hf).2
    simp [hid]

theorem C2_remove_stock_spec_witness :
    (0 : Int) ≤ 3 ∧
    find_product [⟨1, "Widget", 5, 2, "w"⟩] 1 = some ⟨1, "Widget", 5, 2, "w"⟩ ∧
    (3 : Int) ≤ 5 ∧
    find_product (apply_op [⟨1, "Widget", 5, 2, "w"⟩] (StockOp.remove 1 3)) 1 =
      some ⟨1, "Widget", 2, 2, "w"⟩ :=
  ⟨by decide, by decide, by decide,
    by
      have h := (C2_remove_stock_spec [⟨1, "Widget", 5, 2, "w"⟩] 1 3).2.2.2.2
        ⟨1, "Widget", 5, 2, "w"⟩ (by decide) (by decide) (by decide)
      simpa using h⟩

/-- C7: `add_stock` fails with `InvalidArgument` on a negative quantity and
leaves the table unchanged; otherwise it increments the stored quantity of
the product by the given quantity, and is a no-op on the catalog when no
product with the given identifier exists. -/
theorem C7_add_stock_spec (db : DB) (pid qty : Int) :
    (qty < 0 →
      add_stock db pid qty =
        .error (.InvalidArgument "Quantity to add must be non-negative.") ∧
      apply_op db (StockOp.add pid qty) = db) ∧
    (0 ≤ qty → ∀ p, find_product db pid = some p →
      find_product (apply_op db (StockOp.add pid qty)) pid =
        some { p with quantity := p.quantity + qty }) ∧
    (find_product db pid = none → apply_op db (StockOp.add pid qty) = db) := by
  refine ⟨?_, ?_, ?_⟩
  · intro h
    constructor
    · simp [add_stock, h]
    · simp [apply_op, add_stock, h]
  · intro h p hf
    have hstep : apply_op db (StockOp.add pid qty) =
        db.map (fun p =>
          if p.id == pid then { p with quantity := p.quantity + qty } else p) := by
      simp [apply_op, add_stock, not_lt.mpr h]
    rw [hstep,
      find_product_map db pid _ (fun r => by by_cases hr : r.id == pid <;> simp [hr]),
      hf]
    have hid := (find_product_eq_some hf).2
    simp [hid]
  · intro hn
    by_cases h : qty < 0
    · simp [apply_op, add_stock, h]
    · have hstep : apply_op db (StockOp.add pid qty) =
          db.map (fun p =>
            if p.id == pid then { p with quantity := p.quantity + qty } else p) := by
        simp [apply_op, add_stock, h]
      rw [hstep]
      apply map_eq_self_of_absent db pid _ _ hn
      intro p hp
      simp [hp]

theorem C7_add_stock_spec_witness :
    ((0 : Int) ≤ 4 ∧
      find_product [⟨1, "Widget", 5, 2, "w"⟩] 1 = some ⟨1, "Widget", 5, 2, "w"⟩ ∧
      find_product (apply_op [⟨1, "Widget", 5, 2, "w"⟩] (StockOp.add 1 4)) 1 =
        some ⟨1, "Widget", 9, 2, "w"⟩) ∧
    (find_product [⟨1, "Widget", 5, 2, "w"⟩] 6 = none ∧
      apply_op [⟨1, "Widget", 5, 2, "w"⟩] (StockOp.add 6 4) = [⟨1, "Widget", 5, 2, "w"⟩]) :=
  ⟨⟨by decide, by decide,
    by
      have h := (C7_add_stock_spec [⟨1, "Widget", 5, 2, "w"⟩] 1 4).2.1
        (by decide) ⟨1, "Widget", 5, 2, "w"⟩ (by decide)
      simpa using h⟩,
   ⟨by decide,
    (C7_add_stock_spec [⟨1, "Widget", 5, 2, "w"⟩] 6 4).2.2 (by decide)⟩⟩

/-! ### Helper lemmas about inserts and fresh rowids -/

theorem le_foldl_max : ∀ (l : List Product) (a : Int),
    a ≤ l.foldl (fun m p => max m p.id) a
  | [], a => le_refl a
  | hd :: tl, a => by
    rw [List.foldl_cons]
    exact le_trans (le_max_left a hd.id) (le_foldl_max tl _)

theorem mem_le_foldl_max (l : List Product) :
    ∀ (a : Int) (p : Product), p ∈ l → p.id ≤ l.foldl (fun m q => max m q.id) a := by
  induction l with
  | nil => intro a p hp; cases hp
  | cons hd tl ih =>
    intro a p hp
    rw [List.foldl_cons]
    rcases List.mem_cons.mp hp with h | h
    · subst h
      exact le_trans (le_max_right a p.id) (le_foldl_max tl _)
    · exact ih _ p h

/-- The store-assigned rowid is fresh: no existing row carries it. -/
theorem find_product_next_id (db : DB) : find_product db (next_id db) = none := by
  apply List.find?_eq_none.mpr
  intro p hp
  simp only [beq_iff_eq]
  intro he
  have h1 : p.id ≤ db.foldl (fun m q => max m q.id) 0 := mem_le_foldl_max db 0 p hp
  unfold next_id at he
  omega

/-- Appending a row whose primary key is absent makes it the row that a
lookup of that key finds. -/
theorem find_product_append_absent (db : DB) (pid : Int) (p : Product)
    (h : find_product db pid = none) (hid : p.id = pid) :
    find_product (db ++ [p]) pid = some p := by
  unfold find_product at *
  rw [List.find?_append, h]
  simp [List.find?_cons, hid]

/-- C8: `add_product` followed by `get_product` on the resulting identifier
returns a record containing exactly the inserted name, quantity, price and
description — both when the store assigns the identifier and when a fresh
nonzero identifier is supplied explicitly. -/
theorem C8_round_trip (db : DB) (pname : String) (qty : Int) (price : ℚ)
    (pdesc : String) :
    (add_product db pname qty price pdesc none =
        .ok (db ++ [⟨next_id db, pname, qty, price, pdesc⟩], next_id db) ∧
      get_product (db ++ [⟨next_id db, pname, qty, price, pdesc⟩]) (next_id db) =
        some ⟨next_id db, pname, qty, price, pdesc⟩) ∧
    (∀ pid, pid ≠ 0 → find_product db pid = none →
      add_product db pname qty price pdesc (some pid) =
        .ok (db ++ [⟨pid, pname, qty, price, pdesc⟩], pid) ∧
      get_product (db ++ [⟨pid, pname, qty, price, pdesc⟩]) pid =
        some ⟨pid, pname, qty, price, pdesc⟩) := by
  constructor
  · constructor
    · simp [add_product, truthy]
    · exact find_product_append_absent db (next_id db) _ (find_product_next_id db) rfl
  · intro pid hpid habs
    constructor
    · simp [add_product, truthy, hpid, habs]
    · exact find_product_append_absent db pid _ habs rfl

theorem C8_round_trip_witness :
    (7 : Int) ≠ 0 ∧
    find_product ([] : DB) 7 = none ∧
    add_product ([] : DB) "Bolt" 100 (1/2) "steel bolt" (some 7) =
      .ok ([⟨7, "Bolt", 100, 1/2, "steel bolt"⟩], 7) ∧
    get_product [⟨7, "Bolt", 100, 1/2, "steel bolt"⟩] 7 =
      some ⟨7, "Bolt", 100, 1/2, "steel bolt"⟩ :=
  ⟨by decide, by decide,
    by
      have h := (C8_round_trip ([] : DB) "Bolt" 100 (1/2) "steel bolt").2 7
        (by decide) (by decide)
      exact h.1,
    by
      have h := (C8_round_trip ([] : DB) "Bolt" 100 (1/2) "steel bolt").2 7
        (by decide) (by decide)
      exact h.2⟩

/-- C9 counterexample: the identifier `0` is supplied explicitly and does
not collide with any existing primary key, yet the row is inserted with the
store-assigned identifier `1` instead — `if product_id:` treats `0` like
`None`. -/
theorem C9_counterexample :
    add_product ([] : DB) "Widget" 5 2 "w" (some 0) =
      .ok ([⟨1, "Widget", 5, 2, "w"⟩], 1) ∧
    find_product ([⟨1, "Widget", 5, 2, "w"⟩] : DB) 0 = none := by
  constructor <;> rfl

/-- C9 amended: when a nonzero identifier is supplied, the row is inserted
with that identifier (failing with `IntegrityError` when it collides with
an existing primary key); when no identifier is supplied — or the supplied
identifier is `0`, which Python truthiness treats like `None` — the store
assigns the next identifier. -/
theorem C9_add_product_id (db : DB) (pname : String) (qty : Int) (price : ℚ)
    (pdesc : String) (pid : Int) :
    (pid ≠ 0 → (find_product db pid).isSome = true →
      add_product db pname qty price pdesc (some pid) = .error .IntegrityError) ∧
    (pid ≠ 0 → find_product db pid = none →
      add_product db pname qty price pdesc (some pid) =
        .ok (db ++ [⟨pid, pname, qty, price, pdesc⟩], pid)) ∧
    (add_product db pname qty price pdesc (some 0) =
      add_product db pname qty price pdesc none) ∧
    (add_product db pname qty price pdesc none =
      .ok (db ++ [⟨next_id db, pname, qty, price, pdesc⟩], next_id db)) := by
  refine ⟨?_, ?_, ?_, ?_⟩
  · intro hpid hsome
    simp [add_product, truthy, hpid, hsome]
  · intro hpid habs
    simp [add_product, truthy, hpid, habs]
  · simp [add_product, truthy]
  · simp [add_product, truthy]

theorem C9_add_product_id_witness :
    ((7 : Int) ≠ 0 ∧
      (find_product [⟨7, "Bolt", 100, 1/2, "b"⟩] 7).isSome = true ∧
      add_product [⟨7, "Bolt", 100, 1/2, "b"⟩] "Nut" 4 2 "n" (some 7) =
        .error .IntegrityError) ∧
    ((5 : Int) ≠ 0 ∧
      find_product [⟨7, "Bolt", 100, 1/2, "b"⟩] 5 = none ∧
      add_product [⟨7, "Bolt", 100, 1/2, "b"⟩] "Nut" 4 2 "n" (some 5) =
        .ok ([⟨7, "Bolt", 100, 1/2, "b"⟩, ⟨5, "Nut", 4, 2, "n"⟩], 5)) :=
  ⟨⟨by decide, by decide,
    (C9_add_product_id [⟨7, "Bolt", 100, 1/2, "b"⟩] "Nut" 4 2 "n" 7).1
      (by decide) (by decide)⟩,
   ⟨by decide, by decide,
    (C9_add_product_id [⟨7, "Bolt", 100, 1/2, "b"⟩] "Nut" 4 2 "n" 5).2.1
      (by decide) (by decide)⟩⟩

/-! ### The order of effects in the batch procedures -/

theorem outgoing_row_trace_events (rows : List OutRow) :
    ∀ db : DB, Event.moveFile ∉ outgoing_row_trace db rows ∧
      Event.commit ∉ outgoing_row_trace db rows := by
  induction rows with
  | nil => intro db; simp [outgoing_row_trace]
  | cons row rest ih =>
    intro db
    have h := ih (outgoing_db_step db row)
    unfold outgoing_row_trace
    cases hc : row.codecontent with
    | none => simpa using h
    | some t =>
      obtain ⟨pid, pname, pprice⟩ := t
      cases hf : find_product db pid with
      | none => simpa [hf] using h
      | some p => simpa [hf] using h

theorem incoming_row_trace_events (rows : List InRow) :
    ∀ db : DB, Event.moveFile ∉ incoming_row_trace db rows ∧
      Event.commit ∉ incoming_row_trace db rows := by
  induction rows with
  | nil => intro db; simp [incoming_row_trace]
  | cons row rest ih =>
    intro db
    have h := ih (process_incoming_row db row)
    unfold incoming_row_trace
    cases hc : row.codecontent with
    | none => simpa using h
    | some t =>
      obtain ⟨pid, pname, pprice, pdesc⟩ := t
      cases hf : find_product db pid with
      | none => simpa [hf] using h
      | some p => simpa [hf] using h

/-- C4 counterexample: on a concrete batch (here the empty one) both batch
procedures move the source file strictly before the database commit, so
the file is not moved only after the commit. -/
theorem C4_counterexample :
    process_outgoing_trace [] [] = [Event.moveFile, Event.commit, Event.writeInvoice] ∧
    process_incoming_trace [] [] = [Event.moveFile, Event.commit] ∧
    (process_outgoing_trace [] []).indexOf Event.moveFile <
      (process_outgoing_trace [] []).indexOf Event.commit ∧
    (process_incoming_trace [] []).indexOf Event.moveFile <
      (process_incoming_trace [] []).indexOf Event.commit := by
  refine ⟨rfl, rfl, ?_, ?_⟩ <;> decide

/-- C4 amended: in both batch procedures the source file is moved after all
per-row updates but before the database commit: the order of effects is
apply all row updates, then move the file, then commit (then, for outgoing
goods, write the invoice). -/
theorem C4_move_before_commit (db : DB) (rows : List OutRow)
    (db2 : DB) (rows2 : List InRow) :
    (∃ evs, process_outgoing_trace db rows =
        evs ++ [Event.moveFile, Event.commit, Event.writeInvoice] ∧
      Event.moveFile ∉ evs ∧ Event.commit ∉ evs) ∧
    (∃ evs, process_incoming_trace db2 rows2 = evs ++ [Event.moveFile, Event.commit] ∧
      Event.moveFile ∉ evs ∧ Event.commit ∉ evs) :=
  ⟨⟨outgoing_row_trace db rows, rfl,
    (outgoing_row_trace_events rows db).1, (outgoing_row_trace_events rows db).2⟩,
   ⟨incoming_row_trace db2 rows2, rfl,
    (incoming_row_trace_events rows2 db2).1, (incoming_row_trace_events rows2 db2).2⟩⟩

/-- C3: in `process_outgoing_goods`, a row whose product exists in the
catalog sets the stored quantity to `max (old - row quantity) 0` — floored
at zero and hence never negative, even when the row quantity exceeds the
current stock. -/
theorem C3_outgoing_floor (db : DB) (inv : List InvoiceItem) (pid : Int)
    (pname : String) (pprice : ℚ) (qty : Int) (p : Product)
    (hf : find_product db pid = some p) :
    find_product (process_outgoing_row db inv ⟨some (pid, pname, pprice), qty⟩).1 pid =
      some { p with quantity := max (p.quantity - qty) 0 } ∧
    0 ≤ max (p.quantity - qty) 0 := by
  constructor
  · have hstep : (process_outgoing_row db inv ⟨some (pid, pname, pprice), qty⟩).1 =
        set_quantity db pid (max (p.quantity - qty) 0) := by
      simp [process_outgoing_row, outgoing_db_step, hf]
    rw [hstep]
    unfold set_quantity
    rw [find_product_map db pid _ (fun r => by by_cases hr : r.id == pid <;> simp [hr]),
      hf]
    have hid := (find_product_eq_some hf).2
    simp [hid]
  · exact le_max_right _ _

theorem C3_outgoing_floor_witness :
    find_product [⟨7, "Bolt", 100, 1/2, "b"⟩] 7 = some ⟨7, "Bolt", 100, 1/2, "b"⟩ ∧
    (find_product (process_outgoing_row [⟨7, "Bolt", 100, 1/2, "b"⟩] []
        ⟨some (7, "Bolt", 1/2), 130⟩).1 7 =
      some { (⟨7, "Bolt", 100, 1/2, "b"⟩ : Product) with
        quantity := max ((⟨7, "Bolt", 100, 1/2, "b"⟩ : Product).quantity - 130) 0 } ∧
      0 ≤ max ((⟨7, "Bolt", 100, 1/2, "b"⟩ : Product).quantity - 130) 0) ∧
    max ((100 : Int) - 130) 0 = 0 :=
  ⟨by with_unfolding_all decide,
   C3_outgoing_floor [⟨7, "Bolt", 100, 1/2, "b"⟩] [] 7 "Bolt" (1/2) 130
     ⟨7, "Bolt", 100, 1/2, "b"⟩ (by with_unfolding_all decide),
   by decide⟩

/-- C6: in `process_incoming_goods`, a row whose product already exists only
changes that product's quantity (incremented by the row quantity), leaving
its name, price and description untouched and every other row of the
catalog unchanged; a row whose product does not exist appends a new record
with the row's identifier, name, quantity, price and description. -/
theorem C6_incoming_frame (db : DB) (pid : Int) (pname : String) (pprice : ℚ)
    (pdesc : String) (qty : Int) :
    (∀ p, find_product db pid = some p →
      find_product (process_incoming_row db ⟨some (pid, pname, pprice, pdesc), qty⟩) pid =
        some { p with quantity := p.quantity + qty } ∧
      (∀ r ∈ db, r.id ≠ pid →
        r ∈ process_incoming_row db ⟨some (pid, pname, pprice, pdesc), qty⟩) ∧
      (∀ r ∈ process_incoming_row db ⟨some (pid, pname, pprice, pdesc), qty⟩,
        r.id ≠ pid → r ∈ db)) ∧
    (find_product db pid = none →
      process_incoming_row db ⟨some (pid, pname, pprice, pdesc), qty⟩ =
        db ++ [⟨pid, pname, qty, pprice, pdesc⟩]) := by
  constructor
  · intro p hf
    have hstep : process_incoming_row db ⟨some (pid, pname, pprice, pdesc), qty⟩ =
        set_quantity db pid (p.quantity + qty) := by
      simp [process_incoming_row, hf]
    refine ⟨?_, ?_, ?_⟩
    · rw [hstep]
      unfold set_quantity
      rw [find_product_map db pid _ (fun r => by by_cases hr : r.id == pid <;> simp [hr]),
        hf]
      have hid := (find_product_eq_some hf).2
      simp [hid]
    · intro r hr hrid
      rw [hstep]
      unfold set_quantity
      apply List.mem_map.mpr
      exact ⟨r, hr, by simp [hrid]⟩
    · intro r hr hrid
      rw [hstep] at hr
      unfold set_quantity at hr
      obtain ⟨a, ha, hfa⟩ := List.mem_map.mp hr
      by_cases hid : a.id = pid
      · exfalso
        apply hrid
        rw [← hfa]
        simp [hid]
      · rw [← hfa]
        simpa [hid] using ha
  · intro habs
    simp [process_incoming_row, habs]

theorem C6_incoming_frame_witness :
    (find_product [⟨7, "Bolt", 100, 1/2, "steel bolt"⟩, ⟨9, "Nut", 3, 2, "n"⟩] 7 =
        some ⟨7, "Bolt", 100, 1/2, "steel bolt"⟩ ∧
      find_product
        (process_incoming_row [⟨7, "Bolt", 100, 1/2, "steel bolt"⟩, ⟨9, "Nut", 3, 2, "n"⟩]
          ⟨some (7, "Bolt", 1/2, "steel bolt"), 25⟩) 7 =
        some { (⟨7, "Bolt", 100, 1/2, "steel bolt"⟩ : Product) with
          quantity := (⟨7, "Bolt", 100, 1/2, "steel bolt"⟩ : Product).quantity + 25 } ∧
      ⟨9, "Nut", 3, 2, "n"⟩ ∈
        process_incoming_row [⟨7, "Bolt", 100, 1/2, "steel bolt"⟩, ⟨9, "Nut", 3, 2, "n"⟩]
          ⟨some (7, "Bolt", 1/2, "steel bolt"), 25⟩) ∧
    (find_product ([] : DB) 7 = none ∧
      process_incoming_row ([] : DB) ⟨some (7, "Bolt", 1/2, "steel bolt"), 100⟩ =
        [⟨7, "Bolt", 100, 1/2, "steel bolt"⟩]) := by
  constructor
  · have h := (C6_incoming_frame [⟨7, "Bolt", 100, 1/2, "steel bolt"⟩, ⟨9, "Nut", 3, 2, "n"⟩]
      7 "Bolt" (1/2) "steel bolt" 25).1 ⟨7, "Bolt", 100, 1/2, "steel bolt"⟩
      (by with_unfolding_all decide)
    refine ⟨by with_unfolding_all decide, h.1, ?_⟩
    exact h.2.1 ⟨9, "Nut", 3, 2, "n"⟩ (by simp) (by decide)
  · have h := (C6_incoming_frame ([] : DB) 7 "Bolt" (1/2) "steel bolt" 100).2 rfl
    exact ⟨rfl, h⟩

/-! ### Helper lemmas about the invoice accumulation -/

/-- Accumulating a row for a different product does not change the line a
given product's lookup finds. -/
theorem find_invoice_add_ne (inv : List InvoiceItem) (pid pid2 : Int)
    (pname : String) (qty : Int) (price : ℚ) (h : pid2 ≠ pid) :
    find_invoice (add_to_invoice inv pid2 pname qty price) pid =
      find_invoice inv pid := by
  induction inv with
  | nil => simp [add_to_invoice, find_invoice, List.find?_cons, h]
  | cons item rest ih =>
    by_cases hm : item.product_id = pid2
    · have hb : (item.product_id == pid2) = true := by simp [hm]
      have hb2 : (item.product_id == pid) = false := by simp [hm, h]
      simp only [add_to_invoice, hb, if_pos rfl]
      simp [find_invoice, List.find?_cons, hb2, hm, h]
    · have hb : (item.product_id == pid2) = false := by simp [hm]
      simp only [add_to_invoice, hb, Bool.false_eq_true, if_false]
      by_cases hp : item.product_id = pid
      · simp [find_invoice, List.find?_cons, hp]
      · have hb2 : (item.product_id == pid) = false := by simp [hp]
        simp only [find_invoice, List.find?_cons, hb2] at *
        exact ih

/-- Accumulating a row for a product that already has an invoice line merges
the row into that line: its quantity and total price grow by the row's
quantity and quantity × unit price. -/
theorem find_invoice_add_eq_some (inv : List InvoiceItem) (pid : Int)
    (pname : String) (qty : Int) (price : ℚ) (item : InvoiceItem)
    (h : find_invoice inv pid = some item) :
    find_invoice (add_to_invoice inv pid pname qty price) pid =
      some { item with
        quantity := item.quantity + qty,
        total_price := item.total_price + (qty : ℚ) * price } := by
  induction inv with
  | nil => simp [find_invoice] at h
  | cons hd rest ih =>
    by_cases hm : hd.product_id = pid
    · have hb : (hd.product_id == pid) = true := by simp [hm]
      have hhd : item = hd := by
        simp [find_invoice, List.find?_cons, hb] at h
        exact h.symm
      subst hhd
      simp only [add_to_invoice, hb, if_pos rfl]
      simp [find_invoice, List.find?_cons, hb]
    · have hb : (hd.product_id == pid) = false := by simp [hm]
      have h2 : find_invoice rest pid = some item := by
        simpa [find_invoice, List.find?_cons, hb] using h
      simp only [add_to_invoice, hb, Bool.false_eq_true, if_false]
      simp only [find_invoice, List.find?_cons, hb] at *
      exact ih h2

/-- Accumulating a row for a product with no invoice line yet appends a
fresh line built from the row. -/
theorem find_invoice_add_eq_none (inv : List InvoiceItem) (pid : Int)
    (pname : String) (qty : Int) (price : ℚ)
    (h : find_invoice inv pid = none) :
    find_invoice (add_to_invoice inv pid pname qty price) pid =
      some ⟨pid, pname, qty, price, (qty : ℚ) * price⟩ := by
  induction inv with
  | nil => simp [add_to_invoice, find_invoice, List.find?_cons]
  | cons hd rest ih =>
    have hm : hd.product_id ≠ pid := by
      intro he
      have hb : (hd.product_id == pid) = true := by simp [he]
      simp [find_invoice, List.find?_cons, hb] at h
    have hb : (hd.product_id == pid) = false := by simp [hm]
    have h2 : find_invoice rest pid = none := by
      simpa [find_invoice, List.find?_cons, hb] using h
    simp only [add_to_invoice, hb, Bool.false_eq_true, if_false]
    simp only [find_invoice, List.find?_cons, hb] at *
    exact ih h2

/-- A merged or appended invoice line for the row's product is always
present after the accumulation step. -/
theorem find_invoice_add_isSome (inv : List InvoiceItem) (pid : Int)
    (pname : String) (qty : Int) (price : ℚ) :
    (find_invoice (add_to_invoice inv pid pname qty price) pid).isSome = true := by
  cases h : find_invoice inv pid with
  | none => simp [find_invoice_add_eq_none inv pid pname qty price h]
  | some item => simp [find_invoice_add_eq_some inv pid pname qty price item h]

/-- C10: in `process_outgoing_goods`, a row with non-empty encoded content
whose product identifier does not exist in the catalog still accumulates
(or merges) an invoice line for that identifier, while the catalog is left
entirely unchanged. -/
theorem C10_invoice_without_product (db : DB) (inv : List InvoiceItem)
    (pid : Int) (pname : String) (pprice : ℚ) (qty : Int)
    (habs : find_product db pid = none) :
    process_outgoing_row db inv ⟨some (pid, pname, pprice), qty⟩ =
      (db, add_to_invoice inv pid pname qty pprice) ∧
    (find_invoice (add_to_invoice inv pid pname qty pprice) pid).isSome = true := by
  constructor
  · simp [process_outgoing_row, outgoing_db_step, habs]
  · exact find_invoice_add_isSome inv pid pname qty pprice

theorem C10_invoice_without_product_witness :
    find_product [⟨1, "Widget", 5, 2, "w"⟩] 7 = none ∧
    (process_outgoing_row [⟨1, "Widget", 5, 2, "w"⟩] [] ⟨some (7, "Bolt", 1/2), 30⟩ =
      ([⟨1, "Widget", 5, 2, "w"⟩], add_to_invoice [] 7 "Bolt" 30 (1/2)) ∧
     (find_invoice (add_to_invoice [] 7 "Bolt" 30 (1/2)) 7).isSome = true) ∧
    add_to_invoice [] 7 "Bolt" 30 (1/2) = [⟨7, "Bolt", 30, 1/2, 15⟩] :=
  ⟨by decide,
   C10_invoice_without_product [⟨1, "Widget", 5, 2, "w"⟩] [] 7 "Bolt" (1/2) 30 (by decide),
   by with_unfolding_all decide⟩

/-- The quantity and total price of the invoice line a product's lookup
finds, if any. -/
def invoice_sums (inv : List InvoiceItem) (pid : Int) : Option (Int × ℚ) :=
  (find_invoice inv pid).map (fun item => (item.quantity, item.total_price))

/-- Invariant of the row loop of `process_outgoing_goods`: the quantity and
total price of a product's invoice line grow by exactly the contributions
of the processed rows. -/
theorem outgoing_fold_sums (rows : List OutRow) :
    ∀ (db : DB) (inv : List InvoiceItem) (pid : Int),
    invoice_sums (rows.foldl out_step (db, inv)).2 pid =
      match invoice_sums inv pid with
      | some s => some (s.1 + rows_qty pid rows, s.2 + rows_total pid rows)
      | none =>
        if mentions pid rows = true then some (rows_qty pid rows, rows_total pid rows)
        else none := by
  induction rows with
  | nil =>
    intro db inv pid
    cases h : invoice_sums inv pid <;> simp [rows_qty, rows_total, mentions, h]
  | cons row rest ih =>
    intro db inv pid
    rw [List.foldl_cons]
    cases hc : row.codecontent with
    | none =>
      have hstep : out_step (db, inv) row = (db, inv) := by
        simp [out_step, process_outgoing_row, hc]
      rw [hstep, ih db inv pid]
      cases h : invoice_sums inv pid <;>
        simp [rows_qty, rows_total, mentions, hc, h]
    | some t =>
      obtain ⟨p, nm, pr⟩ := t
      have hstep : out_step (db, inv) row =
          (outgoing_db_step db row, add_to_invoice inv p nm row.quantity pr) := by
        simp [out_step, process_outgoing_row, hc]
      rw [hstep, ih _ _ pid]
      by_cases hp : p = pid
      · subst hp
        cases h : find_invoice inv p with
        | some item =>
          have h2 := find_invoice_add_eq_some inv p nm row.quantity pr item h
          simp [invoice_sums, h, h2, rows_qty, rows_total, mentions, hc, add_assoc]
        | none =>
          have h2 := find_invoice_add_eq_none inv p nm row.quantity pr h
          simp [invoice_sums, h, h2, rows_qty, rows_total, mentions, hc]
      · have h2 := find_invoice_add_ne inv pid p nm row.quantity pr hp
        unfold invoice_sums
        rw [h2]
        cases h : find_invoice inv pid <;>
          simp [rows_qty, rows_total, mentions, hc, hp, h]

theorem not_mem_ids_of_find_invoice_none (inv : List InvoiceItem) (pid : Int)
    (h : find_invoice inv pid = none) : pid ∉ inv.map InvoiceItem.product_id := by
  intro hmem
  obtain ⟨x, hx, hxe⟩ := List.mem_map.mp hmem
  have h2 := List.find?_eq_none.mp h x hx
  simp [hxe] at h2

/-- The accumulation step either leaves the column of invoice product ids
unchanged (when the product already has a line) or appends the new id. -/
theorem add_to_invoice_ids (inv : List InvoiceItem) (pid : Int) (pname : String)
    (qty : Int) (price : ℚ) :
    (add_to_invoice inv pid pname qty price).map InvoiceItem.product_id =
      if (find_invoice inv pid).isSome = true then inv.map InvoiceItem.product_id
      else inv.map InvoiceItem.product_id ++ [pid] := by
  induction inv with
  | nil => simp [add_to_invoice, find_invoice]
  | cons hd rest ih =>
    by_cases hm : hd.product_id = pid
    · have hb : (hd.product_id == pid) = true := by simp [hm]
      simp [add_to_invoice, hb, find_invoice, List.find?_cons]
    · have hb : (hd.product_id == pid) = false := by simp [hm]
      simp only [add_to_invoice, hb, Bool.false_eq_true, if_false, List.map_cons]
      simp only [find_invoice, List.find?_cons, hb] at *
      rw [ih]
      by_cases hs : (List.find? (fun item => item.product_id == pid) rest).isSome = true
      · simp [hs]
      · simp [hs]

/-- The row loop of `process_outgoing_goods` keeps the invoice product ids
pairwise distinct. -/
theorem outgoing_fold_nodup (rows : List OutRow) :
    ∀ (db : DB) (inv : List InvoiceItem),
    (inv.map InvoiceItem.product_id).Nodup →
    ((rows.foldl out_step (db, inv)).2.map InvoiceItem.product_id).Nodup := by
  induction rows with
  | nil => intro db inv h; exact h
  | cons row rest ih =>
    intro db inv h
    rw [List.foldl_cons]
    cases hc : row.codecontent with
    | none =>
      have hstep : out_step (db, inv) row = (db, inv) := by
        simp [out_step, process_outgoing_row, hc]
      rw [hstep]
      exact ih db inv h
    | some t =>
      obtain ⟨p, nm, pr⟩ := t
      have hstep : out_step (db, inv) row =
          (outgoing_db_step db row, add_to_invoice inv p nm row.quantity pr) := by
        simp [out_step, process_outgoing_row, hc]
      rw [hstep]
      apply ih
      rw [add_to_invoice_ids]
      by_cases hs : (find_invoice inv p).isSome = true
      · simpa [hs] using h
      · have hnone : find_invoice inv p = none := by
          cases hfi : find_invoice inv p with
          | none => rfl
          | some it => simp [hfi] at hs
        have hnm := not_mem_ids_of_find_invoice_none inv p hnone
        simp only [hnone, Option.isSome_none, Bool.false_eq_true, if_false]
        rw [List.nodup_append]
        refine ⟨h, List.nodup_singleton p, ?_⟩
        intro a ha hb
        simp only [List.mem_singleton] at hb
        subst hb
        exact hnm ha

/-- C5: in `process_outgoing_goods`, all rows referencing the same product
are merged into a single invoice line (the invoice product ids stay
pairwise distinct) whose quantity is the sum of the rows' quantities and
whose total price is the sum of the rows' quantity × unit-price products. -/
theorem C5_invoice_merge (db : DB) (rows : List OutRow) (pid : Int)
    (hm : mentions pid rows = true) :
    (∃ item, find_invoice (process_outgoing_rows db rows).2 pid = some item ∧
      item.quantity = rows_qty pid rows ∧
      item.total_price = rows_total pid rows) ∧
    ((process_outgoing_rows db rows).2.map InvoiceItem.product_id).Nodup := by
  constructor
  · have h := outgoing_fold_sums rows db [] pid
    simp only [invoice_sums, find_invoice, List.find?_nil, Option.map_none', hm,
      if_pos] at h
    unfold process_outgoing_rows
    obtain ⟨item, hfind, hsums⟩ := Option.map_eq_some'.mp h
    exact ⟨item, hfind, congrArg Prod.fst hsums, congrArg Prod.snd hsums⟩
  · exact outgoing_fold_nodup rows db [] (by simp)

theorem C5_invoice_merge_witness :
    mentions 7 [⟨some (7, "Bolt", 1/2), 30⟩, ⟨some (7, "Bolt", 1/2), 90⟩] = true ∧
    rows_qty 7 [⟨some (7, "Bolt", 1/2), 30⟩, ⟨some (7, "Bolt", 1/2), 90⟩] = 120 ∧
    rows_total 7 [⟨some (7, "Bolt", 1/2), 30⟩, ⟨some (7, "Bolt", 1/2), 90⟩] = 60 ∧
    ((∃ item, find_invoice (process_outgoing_rows [⟨7, "Bolt", 100, 1/2, "b"⟩]
        [⟨some (7, "Bolt", 1/2), 30⟩, ⟨some (7, "Bolt", 1/2), 90⟩]).2 7 = some item ∧
      item.quantity =
        rows_qty 7 [⟨some (7, "Bolt", 1/2), 30⟩, ⟨some (7, "Bolt", 1/2), 90⟩] ∧
      item.total_price =
        rows_total 7 [⟨some (7, "Bolt", 1/2), 30⟩, ⟨some (7, "Bolt", 1/2), 90⟩]) ∧
     ((process_outgoing_rows [⟨7, "Bolt", 100, 1/2, "b"⟩]
        [⟨some (7, "Bolt", 1/2), 30⟩, ⟨some (7, "Bolt", 1/2), 90⟩]).2.map
          InvoiceItem.product_id).Nodup) ∧
    (process_outgoing_rows [⟨7, "Bolt", 100, 1/2, "b"⟩]
        [⟨some (7, "Bolt", 1/2), 30⟩, ⟨some (7, "Bolt", 1/2), 90⟩]).1 =
      [⟨7, "Bolt", 0, 1/2, "b"⟩] :=
  ⟨by decide, by decide, by with_unfolding_all decide,
   C5_invoice_merge [⟨7, "Bolt", 100, 1/2, "b"⟩]
     [⟨some (7, "Bolt", 1/2), 30⟩, ⟨some (7, "Bolt", 1/2), 90⟩] 7 (by decide),
   by with_unfolding_all decide⟩
